import Mathlib

/-!
Verification development for the AVS (Alexa Voice Service) client repository.

We give a shallow embedding of the protocol/state-machine layer of the client:
the audio-player state machine (src/audio_player.py), the directive engine
(src/directives.py, src/avs.py), the alert-scheduling delay computation
(src/directives.py), the downchannel establishment retry logic (src/avs.py),
and the multipart wire codec (the repository encodes with
requests_toolbelt.MultipartEncoder plus a hand-built streamed body in
src/avs.py, and decodes with requests_toolbelt.MultipartDecoder via
src/util.py's multipart_parse).

Byte strings are modelled as lists of characters (the Python code works on
latin1-decoded byte strings, so every byte is one character).  External
collaborators (the audio output device, the network) are modelled as oracle
inputs: e.g. the audio device's `ended(process)` report is a boolean argument
to each state-machine step.
-/

/-! ## Byte strings -/

/-- Byte strings (Python `bytes` decoded with latin1, or `str`). -/
abbrev Bytes := List Char

def bytes (s : String) : Bytes := s.data

/-- `listStartsWith d s` is true when `d` is an initial segment of `s`
(Python `s.startswith(d)`). -/
def listStartsWith (d s : Bytes) : Bool :=
  match d, s with
  | [], _ => true
  | _ :: _, [] => false
  | c :: d, e :: s => c == e && listStartsWith d s

/-- `hasSub d s` is true when `d` occurs as a contiguous substring of `s`
(Python `d in s` on bytes/str). -/
def hasSub (d : Bytes) : Bytes → Bool
  | [] => d.isEmpty
  | c :: t => listStartsWith d (c :: t) || hasSub d t

/-! ## Events

Every event generator in the source builds a JSON dict
`\x7bevent: \x7bheader: \x7bnamespace, name, messageId\x7d, payload\x7d\x7d`
with a fresh random `messageId`.  We model an event by its namespace, name and
the `token` field of its payload (the only payload field the claims mention);
the random message id is not modelled. -/

structure Event where
  namespace_ : String
  name : String
  token : Option String
deriving DecidableEq

/-- src/audio_player.py `generate_playback_started_event`. -/
def generate_playback_started_event (token : String) : Event :=
  ⟨"AudioPlayer", "PlaybackStarted", some token⟩

/-- src/audio_player.py `generate_playback_nearly_finished_event`. -/
def generate_playback_nearly_finished_event (token : String) : Event :=
  ⟨"AudioPlayer", "PlaybackNearlyFinished", some token⟩

/-- src/audio_player.py `generate_playback_finished_event`.  NOTE: the source
(line 75) sets the header name to "PlaybackStarted", not "PlaybackFinished",
although the function's docstring links the PlaybackFinished reference. -/
def generate_playback_finished_event (token : String) : Event :=
  ⟨"AudioPlayer", "PlaybackStarted", some token⟩

/-- src/audio_player.py `generate_playback_stopped_event`. -/
def generate_playback_stopped_event (token : String) : Event :=
  ⟨"AudioPlayer", "PlaybackStopped", some token⟩

/-- src/audio_player.py `generate_playback_queue_cleared_event` (empty payload). -/
def generate_playback_queue_cleared_event : Event :=
  ⟨"AudioPlayer", "PlaybackQueueCleared", none⟩

/-! ## Audio player state machine (src/audio_player.py) -/

/-- The six player states declared at the top of src/audio_player.py. -/
inductive PState
  | IDLE
  | PLAYING
  | BUFFER_UNDERRUN
  | FINISHED
  | STOPPED
  | PAUSED
deriving DecidableEq

/-- src/directives.py `AudioItem`: we keep the stream token, the optional
content id (set when the stream url starts with "cid:") and the `_audio`
bytes attached by a Play directive's content handler. -/
structure AudioItem where
  token : String
  contentId : Option Bytes
  audio : Option Bytes
deriving DecidableEq

/-- src/audio_player.py `Player`.  `sentEvents` is the (ghost) log of events
passed to `avs.send_event_parse_response`, oldest first. -/
structure Player where
  state : PState
  currentlyPlaying : Option AudioItem
  queue : List AudioItem
  sentEvents : List Event
deriving DecidableEq

/-- `Player.__init__`: state IDLE, no current item, empty queue. -/
def Player.init : Player := ⟨.IDLE, none, [], []⟩

/-- Record one event sent through `avs.send_event_parse_response`. -/
def Player.sendEvent (p : Player) (e : Event) : Player :=
  { p with sentEvents := p.sentEvents ++ [e] }

/-- `Player._play(audio_item)`: send PlaybackStarted, start the device, set
the currently-playing slot and move to PLAYING; if at most one item remains in
the queue also send PlaybackNearlyFinished for the item just started. -/
def Player.play (p : Player) (item : AudioItem) : Player :=
  let p1 := p.sendEvent (generate_playback_started_event item.token)
  let p2 := { p1 with currentlyPlaying := some item, state := PState.PLAYING }
  if p2.queue.length ≤ 1 then
    p2.sendEvent (generate_playback_nearly_finished_event item.token)
  else p2

/-- `Player._item_finished()`: state is PLAYING and the audio device reports
the current process ended.  The device report is the oracle input `ended`. -/
def Player.itemFinished (p : Player) (ended : Bool) : Bool :=
  p.state == PState.PLAYING && ended

/-- `Player._item_playing()`: state is PLAYING and the device does not report
the current process ended. -/
def Player.itemPlaying (p : Player) (ended : Bool) : Bool :=
  p.state == PState.PLAYING && !ended

/-- The token the source reads as `self._currently_playing.stream.token`
(with `''` when the slot is empty, as in `stop`'s conditional expression). -/
def Player.curToken (p : Player) : String :=
  (p.currentlyPlaying.map AudioItem.token).getD ""

/-- First half of `Player.run()`: if the playing item finished, send the
event built by `generate_playback_finished_event`, clear the slot and move to
FINISHED. -/
def Player.runFinish (p : Player) (ended : Bool) : Player :=
  if p.itemFinished ended then
    let p' := p.sendEvent (generate_playback_finished_event p.curToken)
    { p' with currentlyPlaying := none, state := PState.FINISHED }
  else p

/-- Second half of `Player.run()`: if the state is IDLE, STOPPED or FINISHED
and the queue is non-empty, pop the head and `_play` it. -/
def Player.runNext (p : Player) : Player :=
  match p.queue with
  | [] => p
  | i :: rest =>
    if p.state = PState.IDLE ∨ p.state = PState.STOPPED ∨ p.state = PState.FINISHED then
      ({ p with queue := rest }).play i
    else p

/-- `Player.run()` (src/audio_player.py lines 234-250): the two halves in
source order. -/
def Player.run (p : Player) (ended : Bool) : Player :=
  (p.runFinish ended).runNext

/-- `Player.stop()`: only when `_item_playing()`, stop the device, send
PlaybackStopped (token of the current item, `''` if the slot were empty) and
move to STOPPED; otherwise only a warning is logged and nothing changes.
Note the source does NOT clear `_currently_playing` here. -/
def Player.stop (p : Player) (ended : Bool) : Player :=
  if p.itemPlaying ended then
    let p1 := p.sendEvent (generate_playback_stopped_event p.curToken)
    { p1 with state := PState.STOPPED }
  else p

/-- `Player.enqueue(audio_item)`: append to the play queue. -/
def Player.enqueue (p : Player) (item : AudioItem) : Player :=
  { p with queue := p.queue ++ [item] }

/-- `Player.clear_queue()`: empty the queue, then send PlaybackQueueCleared. -/
def Player.clear_queue (p : Player) : Player :=
  ({ p with queue := [] }).sendEvent generate_playback_queue_cleared_event

/-- One externally invokable player operation; `run` and `stop` carry the
audio device's `ended` report for the current process as an oracle. -/
inductive PlayerOp
  | run (ended : Bool)
  | stop (ended : Bool)
  | enqueue (item : AudioItem)
  | clear_queue

def Player.step (p : Player) : PlayerOp → Player
  | .run ended => p.run ended
  | .stop ended => p.stop ended
  | .enqueue item => p.enqueue item
  | .clear_queue => p.clear_queue

/-- Execute a sequence of player operations from a given state. -/
def Player.execOps (p : Player) (ops : List PlayerOp) : Player :=
  ops.foldl Player.step p

/-! ## Claim C1: player state invariant -/

/-- The direction of the invariant that actually holds in the code:
whenever the state is PLAYING the currently-playing slot is non-null. -/
def Player.playingInv (p : Player) : Prop :=
  p.state = PState.PLAYING → p.currentlyPlaying.isSome

instance (p : Player) : Decidable p.playingInv := by
  unfold Player.playingInv; infer_instance

theorem Player.playingInv_play (p : Player) (item : AudioItem) :
    (p.play item).playingInv := by
  unfold Player.play Player.playingInv
  dsimp only
  split <;> (intro _; rfl)

theorem Player.playingInv_runFinish (p : Player) (ended : Bool)
    (hp : p.playingInv) : (p.runFinish ended).playingInv := by
  unfold Player.runFinish
  split
  · intro hst
    exact PState.noConfusion hst
  · exact hp

theorem Player.playingInv_runNext (p : Player) (hp : p.playingInv) :
    p.runNext.playingInv := by
  unfold Player.runNext
  rcases hq : p.queue with _ | ⟨i, rest⟩ <;> dsimp only
  · exact hp
  · split
    · exact Player.playingInv_play _ _
    · exact hp

theorem Player.playingInv_step {p : Player} (hp : p.playingInv) (op : PlayerOp) :
    (p.step op).playingInv := by
  cases op with
  | run ended =>
    exact Player.playingInv_runNext _ (Player.playingInv_runFinish p ended hp)
  | stop ended =>
    show (p.stop ended).playingInv
    unfold Player.stop
    split
    · intro hst
      exact PState.noConfusion hst
    · exact hp
  | enqueue item =>
    exact fun hst => hp hst
  | clear_queue =>
    exact fun hst => hp hst

theorem Player.playingInv_execOps {p : Player} (hp : p.playingInv)
    (ops : List PlayerOp) : (p.execOps ops).playingInv := by
  induction ops generalizing p with
  | nil => exact hp
  | cons op ops ih =>
    exact ih (Player.playingInv_step hp op)

/-- C1 (counterexample): the claimed two-sided invariant
"currently playing is non-null iff state = PLAYING" fails: enqueue an item,
run (it starts playing), then stop while it is playing: the state becomes
STOPPED but the slot still holds the stopped item, because `Player.stop`
never clears `_currently_playing` (src/audio_player.py lines 252-262). -/
theorem claim1_player_invariant_counterexample :
    let p := Player.execOps Player.init
      [PlayerOp.enqueue ⟨"t1", none, none⟩, PlayerOp.run false, PlayerOp.stop false]
    p.state = PState.STOPPED ∧ p.currentlyPlaying = some ⟨"t1", none, none⟩ ∧
      ¬ (p.currentlyPlaying.isSome ↔ p.state = PState.PLAYING) := by
  decide

/-- C1 (amended): only one direction of the invariant holds for every
operation sequence from the initial state: if the state is PLAYING then the
currently-playing slot is non-null.  Moreover `stop()` never changes the
currently-playing slot, so stopping a playing item leaves the stopped item in
the slot (state STOPPED) rather than leaving the slot null. -/
theorem claim1_player_invariant_amended (ops : List PlayerOp) (p : Player) (ended : Bool) :
    (Player.init.execOps ops).playingInv ∧
      (p.stop ended).currentlyPlaying = p.currentlyPlaying := by
  constructor
  · exact Player.playingInv_execOps (by simp [Player.init, Player.playingInv]) ops
  · unfold Player.stop Player.sendEvent
    split <;> rfl

/-- C1 (witness for the amended theorem at a concrete input). -/
theorem claim1_player_invariant_witness :
    (Player.execOps Player.init
        [PlayerOp.enqueue ⟨"t1", none, none⟩, PlayerOp.run false]).playingInv ∧
      ((Player.init.stop false).currentlyPlaying = Player.init.currentlyPlaying) :=
  claim1_player_invariant_amended
    [PlayerOp.enqueue ⟨"t1", none, none⟩, PlayerOp.run false] Player.init false

/-! ## Claim C3: playback completion step -/

/-- C3 (code bug evaluated): with an item playing (token "t1") and the device
reporting it ended, the next `run()` clears the slot and moves to FINISHED as
the claim says, but the event it sends has header name "PlaybackStarted", not
"PlaybackFinished": `generate_playback_finished_event` (src/audio_player.py
line 75) carries the wrong name, contradicting its own docstring, which links
the PlaybackFinished reference. -/
theorem claim3_playback_finished_name_bug :
    (Player.execOps Player.init
        [PlayerOp.enqueue ⟨"t1", none, none⟩, PlayerOp.run false,
         PlayerOp.run true]).state = PState.FINISHED ∧
    (Player.execOps Player.init
        [PlayerOp.enqueue ⟨"t1", none, none⟩, PlayerOp.run false,
         PlayerOp.run true]).currentlyPlaying = none ∧
    (Player.execOps Player.init
        [PlayerOp.enqueue ⟨"t1", none, none⟩, PlayerOp.run false,
         PlayerOp.run true]).sentEvents.getLast? =
      some ⟨"AudioPlayer", "PlaybackStarted", some "t1"⟩ ∧
    (generate_playback_finished_event "t1").name ≠ "PlaybackFinished" := by
  decide

/-! ## Claim C9: stop() frame condition -/

/-- C9 (confirmed): calling `stop()` while `_item_playing()` is false (state
not PLAYING, or the device reports the item already ended) changes nothing:
same state, same slot, same queue, no event sent; the source only logs a
warning and raises no error. -/
theorem claim9_stop_frame (p : Player) (ended : Bool)
    (h : p.itemPlaying ended = false) : p.stop ended = p := by
  unfold Player.stop
  simp [h]

/-- C9 (witness): a player stopped in the IDLE initial state is unchanged. -/
theorem claim9_stop_frame_witness : Player.init.stop false = Player.init :=
  claim9_stop_frame Player.init false (by decide)

/-! ## Claim C6: Play directive merge semantics (src/directives.py lines 434-447) -/

/-- `AudioPlayer.Play.handle`: REPLACE_ALL stops the player, clears the queue
and enqueues the new item; ENQUEUE only enqueues; REPLACE_ENQUEUED clears the
queue and enqueues; any other behavior is logged and nothing is touched
(handle still returns True).  `ended` is the device report consulted by the
inner `player.stop()`. -/
def AudioPlayer_Play_handle (play_behavior : String) (audio_item : AudioItem)
    (ended : Bool) (p : Player) : Player :=
  if play_behavior = "REPLACE_ALL" then
    (((p.stop ended).clear_queue).enqueue audio_item)
  else if play_behavior = "ENQUEUE" then
    p.enqueue audio_item
  else if play_behavior = "REPLACE_ENQUEUED" then
    ((p.clear_queue).enqueue audio_item)
  else p

/-- C6 (confirmed): the merge semantics of the Play directive.  REPLACE_ALL
leaves exactly the new item in the queue, emits PlaybackStopped (only when an
item was actually playing) followed by PlaybackQueueCleared, and moves to
STOPPED only when an item was playing; ENQUEUE only appends; REPLACE_ENQUEUED
replaces the queue with the new item and emits only PlaybackQueueCleared,
leaving state and current item alone; an unrecognized behavior changes
nothing. -/
theorem claim6_play_merge (pb : String) (item : AudioItem) (e : Bool) (p : Player) :
    ((AudioPlayer_Play_handle "REPLACE_ALL" item e p).queue = [item] ∧
     (AudioPlayer_Play_handle "REPLACE_ALL" item e p).sentEvents =
       p.sentEvents ++
         (if p.itemPlaying e then [generate_playback_stopped_event p.curToken] else []) ++
         [generate_playback_queue_cleared_event] ∧
     (AudioPlayer_Play_handle "REPLACE_ALL" item e p).state =
       (if p.itemPlaying e then PState.STOPPED else p.state) ∧
     (AudioPlayer_Play_handle "REPLACE_ALL" item e p).currentlyPlaying = p.currentlyPlaying) ∧
    (AudioPlayer_Play_handle "ENQUEUE" item e p = { p with queue := p.queue ++ [item] }) ∧
    (AudioPlayer_Play_handle "REPLACE_ENQUEUED" item e p =
      { p with queue := [item],
               sentEvents := p.sentEvents ++ [generate_playback_queue_cleared_event] }) ∧
    (pb ≠ "REPLACE_ALL" → pb ≠ "ENQUEUE" → pb ≠ "REPLACE_ENQUEUED" →
      AudioPlayer_Play_handle pb item e p = p) := by
  refine ⟨?_, ?_, ?_, ?_⟩
  · unfold AudioPlayer_Play_handle Player.stop Player.clear_queue Player.enqueue
      Player.sendEvent
    rw [if_pos rfl]
    by_cases hp : p.itemPlaying e = true
    · simp [hp]
    · simp [hp]
  · unfold AudioPlayer_Play_handle Player.enqueue
    rw [if_neg (by decide), if_pos rfl]
  · unfold AudioPlayer_Play_handle Player.clear_queue Player.enqueue Player.sendEvent
    rw [if_neg (by decide), if_neg (by decide), if_pos rfl]
    simp
  · intro h1 h2 h3
    unfold AudioPlayer_Play_handle
    rw [if_neg h1, if_neg h2, if_neg h3]

/-- C6 (witness): concrete IDLE player, unknown behavior "FOO". -/
theorem claim6_play_merge_witness :
    AudioPlayer_Play_handle "FOO" ⟨"t2", none, none⟩ false Player.init = Player.init :=
  (claim6_play_merge "FOO" ⟨"t2", none, none⟩ false Player.init).2.2.2
    (by decide) (by decide) (by decide)

/-! ## Directive engine (src/directives.py, src/avs.py) -/

/-- One decoded body part: headers (dict of byte-string pairs) and raw
content (the latin1-decoded text the decoder produced). -/
structure BodyPart where
  headers : List (Bytes × Bytes)
  content : Bytes
deriving DecidableEq

/-- Python `headers.get(b'Content-ID', b'')`-style lookup. -/
def getHeader (hs : List (Bytes × Bytes)) (k : Bytes) : Bytes :=
  match hs.find? (fun h => h.1 == k) with
  | some h => h.2
  | none => []

/-- Python truthiness of an optional byte string (`None` and `b''` falsy). -/
def pyTruthy : Option Bytes → Bool
  | none => false
  | some s => !s.isEmpty

/-- The directive variants of the fixed registry (src/directives.py):
`SpeechSynthesizer.Speak`, `SpeechRecognizer.StopCapture`, `Alerts.SetAlert`,
`Alerts.DeleteAlert`, `AudioPlayer.Play`, `AudioPlayer.Stop`,
`AudioPlayer.ClearQueue`. -/
inductive Directive
  | speak (content_id : Bytes) (format : String) (token : String) (audio : Option Bytes)
  | stop_capture
  | set_alert (token : String) (ty : String) (scheduledTime : String)
  | delete_alert (token : String)
  | play (play_behavior : String) (audio_item : AudioItem)
  | stopPlayback
  | clearPlaybackQueue (clear_behavior : String)
deriving DecidableEq

/-- `content_handler(headers, content)` of each variant.  Returns the updated
directive when it claims the part (Python mutates `self` and returns True),
`none` when it does not (Python returns False).  `Speak` and `Play` check
whether their content id occurs inside the part's `Content-ID` header
(Python `self.content_id.encode() in headers.get(b'Content-ID', b'')`);
every other variant uses the base-class handler, which returns False. -/
def Directive.content_handler (d : Directive) (pt : BodyPart) : Option Directive :=
  match d with
  | .speak cid fmt tok _ =>
    if hasSub cid (getHeader pt.headers (bytes "Content-ID")) then
      some (.speak cid fmt tok (some pt.content))
    else none
  | .play pb item =>
    if pyTruthy item.contentId &&
        hasSub (item.contentId.getD []) (getHeader pt.headers (bytes "Content-ID")) then
      some (.play pb { item with audio := some pt.content })
    else none
  | _ => none

/-- Whether `handle(avs)` reports the directive completed.  `Speak` completes
only when its stored `_audio` is truthy (`if self._audio:`); every other
variant's `handle` ends in `return True`.  The side effects of `handle` on
the AVS state are modelled separately (e.g. `AudioPlayer_Play_handle`). -/
def Directive.handle_completes (d : Directive) : Bool :=
  match d with
  | .speak _ _ _ audio => pyTruthy audio
  | _ => true

/-- `consume_content(headers, data, _directives)` in `AVS.handle_parts`:
offer the part to each directive in order; the first whose `content_handler`
accepts claims it (list updated in place) and iteration stops; returns
whether anyone claimed it. -/
def consume_content (pt : BodyPart) : List Directive → List Directive × Bool
  | [] => ([], false)
  | d :: ds =>
    match d.content_handler pt with
    | some d' => (d' :: ds, true)
    | none =>
      let r := consume_content pt ds
      (d :: r.1, r.2)

/-- The expression `all(consume_content(headers, data, directives) for
headers, data in non_directives)` in `AVS.handle_parts` (src/avs.py line
326).  Python's `all` over a generator short-circuits: as soon as one part is
claimed by nobody, the remaining parts are never offered at all.  Returns the
final directive list and the boolean `all` result. -/
def offer_contents (ds : List Directive) : List BodyPart → List Directive × Bool
  | [] => (ds, true)
  | pt :: ps =>
    let r := consume_content pt ds
    if r.2 then offer_contents r.1 ps else (r.1, false)

/-- `AVS._handle_directives` (src/avs.py lines 334-345): one dispatch pass;
every pending directive's `handle` runs and the completed ones are removed. -/
def handle_directives_pass (ds : List Directive) : List Directive :=
  ds.filter (fun d => !d.handle_completes)

/-- Number of positions where two directive lists disagree. -/
def diffCount : List Directive → List Directive → Nat
  | x :: xs, y :: ys => (if x = y then 0 else 1) + diffCount xs ys
  | _, _ => 0

theorem diffCount_self (xs : List Directive) : diffCount xs xs = 0 := by
  induction xs with
  | nil => rfl
  | cons x xs ih => simp [diffCount, ih]


/-! ## Claim C7: exclusive content association within one batch -/

theorem consume_content_snd (pt : BodyPart) (ds : List Directive) :
    (consume_content pt ds).2 = ds.any (fun d => (d.content_handler pt).isSome) := by
  induction ds with
  | nil => rfl
  | cons d ds ih =>
    unfold consume_content
    cases h : d.content_handler pt with
    | some d' => simp [h]
    | none => simp [h, ih]

theorem consume_content_diff (pt : BodyPart) (ds : List Directive) :
    diffCount ds (consume_content pt ds).1 ≤ 1 := by
  induction ds with
  | nil => simp [consume_content, diffCount]
  | cons d ds ih =>
    unfold consume_content
    cases h : d.content_handler pt with
    | some d' =>
      simp only [h]
      simp [diffCount, diffCount_self]
      split <;> simp
    | none =>
      simp only [h]
      simpa [diffCount] using ih

theorem offer_contents_abort (pt : BodyPart) (ds : List Directive)
    (ps : List BodyPart) (h : (consume_content pt ds).2 = false) :
    offer_contents ds (pt :: ps) = ((consume_content pt ds).1, false) := by
  unfold offer_contents
  simp [h]

/-- C7 (counterexample): the claim "each non-directive part is offered to the
directives parsed from that same batch" fails.  With one pending Speak
directive (content id "x") and a batch of two parts — the first with a
Content-ID no directive matches, the second with Content-ID "cid-x" that the
Speak directive would accept — Python's short-circuiting
`all(consume_content(...) for ...)` stops at the first unclaimed part, so the
second part is never offered: the Speak directive's audio stays unclaimed
even though its `content_handler` accepts that part. -/
theorem claim7_content_association_counterexample :
    offer_contents [Directive.speak (bytes "x") "f" "t" none]
        [⟨[(bytes "Content-ID", bytes "cid-y")], bytes "AAA"⟩,
         ⟨[(bytes "Content-ID", bytes "cid-x")], bytes "BBB"⟩] =
      ([Directive.speak (bytes "x") "f" "t" none], false) ∧
    ((Directive.speak (bytes "x") "f" "t" none).content_handler
        ⟨[(bytes "Content-ID", bytes "cid-x")], bytes "BBB"⟩).isSome = true := by
  decide

/-- C7 (amended): parts are offered in order only until the first part that
no directive claims.  For each offered part: it is claimed iff some directive
in the batch accepts it, at most one directive (the first acceptor) is
modified by the claim, and as soon as a part is claimed by nobody the
dispatch of contents stops — the remaining parts of the batch are not offered
to any directive (the batch is merely logged as having left-over content; it
does not fail). -/
theorem claim7_content_association_amended (pt : BodyPart) (ds : List Directive)
    (ps : List BodyPart) :
    ((consume_content pt ds).2 = ds.any (fun d => (d.content_handler pt).isSome)) ∧
    diffCount ds (consume_content pt ds).1 ≤ 1 ∧
    ((consume_content pt ds).2 = false →
      offer_contents ds (pt :: ps) = ((consume_content pt ds).1, false)) :=
  ⟨consume_content_snd pt ds, consume_content_diff pt ds, offer_contents_abort pt ds ps⟩

/-- C7 (witness): the amended theorem applied at the concrete batch above. -/
theorem claim7_content_association_witness :
    offer_contents [Directive.speak (bytes "x") "f" "t" none]
        [⟨[(bytes "Content-ID", bytes "cid-y")], bytes "AAA"⟩,
         ⟨[(bytes "Content-ID", bytes "cid-x")], bytes "BBB"⟩] =
      ([Directive.speak (bytes "x") "f" "t" none], false) := by
  have h := (claim7_content_association_amended
      ⟨[(bytes "Content-ID", bytes "cid-y")], bytes "AAA"⟩
      [Directive.speak (bytes "x") "f" "t" none]
      [⟨[(bytes "Content-ID", bytes "cid-x")], bytes "BBB"⟩]).2.2 (by decide)
  exact h.trans (by decide)

/-! ## Claim C8: pending-until-completed dispatch -/

/-- C8 (confirmed): a Speak directive whose audio content never arrived
(`_audio` is None) reports not-completed from `handle`, and a dispatch pass
keeps every not-completed directive in the pending list while removing every
directive whose `handle` reports completed. -/
theorem claim8_pending_until_completed (cid : Bytes) (fmt tok : String)
    (ds : List Directive) :
    ((Directive.speak cid fmt tok none).handle_completes = false) ∧
    (Directive.speak cid fmt tok none ∈ ds →
      Directive.speak cid fmt tok none ∈ handle_directives_pass ds) ∧
    (∀ d ∈ ds, d.handle_completes = true → d ∉ handle_directives_pass ds) := by
  refine ⟨rfl, ?_, ?_⟩
  · intro h
    exact List.mem_filter.mpr ⟨h, rfl⟩
  · intro d _ hc hmem
    have h2 := (List.mem_filter.mp hmem).2
    rw [hc] at h2
    simp at h2

/-- C8 (witness): a contentless Speak directive survives a dispatch pass. -/
theorem claim8_pending_until_completed_witness :
    Directive.speak (bytes "a") "f" "t" none ∈
      handle_directives_pass [Directive.speak (bytes "a") "f" "t" none] :=
  (claim8_pending_until_completed (bytes "a") "f" "t"
      [Directive.speak (bytes "a") "f" "t" none]).2.1 (by decide)

/-! ## Claim C10: a Speak part with empty content is consumed but never
completes -/

/-- C10 (confirmed): when the matching part's content is the empty string,
`Speak.content_handler` still claims it (returns True, consuming the part and
storing `_audio = ''`), but `handle` tests `if self._audio:` — truthiness,
not presence — so the directive reports not-completed and stays in the
pending list on every dispatch pass. -/
theorem claim10_empty_content_pending_forever (hs : List (Bytes × Bytes))
    (cid : Bytes) (fmt tok : String) (ds : List Directive)
    (h : hasSub cid (getHeader hs (bytes "Content-ID")) = true) :
    ((Directive.speak cid fmt tok none).content_handler ⟨hs, []⟩ =
        some (Directive.speak cid fmt tok (some []))) ∧
    ((Directive.speak cid fmt tok (some [])).handle_completes = false) ∧
    (Directive.speak cid fmt tok (some []) ∈ ds →
      Directive.speak cid fmt tok (some []) ∈ handle_directives_pass ds) := by
  refine ⟨?_, rfl, ?_⟩
  · unfold Directive.content_handler
    dsimp only
    rw [if_pos h]
  · intro hmem
    exact List.mem_filter.mpr ⟨hmem, rfl⟩

/-- C10 (witness): concrete header list and content id. -/
theorem claim10_empty_content_witness :
    (Directive.speak (bytes "abc") "f" "t" none).content_handler
        ⟨[(bytes "Content-ID", bytes "abc")], []⟩ =
      some (Directive.speak (bytes "abc") "f" "t" (some [])) :=
  (claim10_empty_content_pending_forever [(bytes "Content-ID", bytes "abc")]
      (bytes "abc") "f" "t" [] (by decide)).1

/-! ## Claim C2: downchannel establishment retries
(src/avs.py `AVS._establish_downstream_directives_channel`, lines 405-427) -/

/-- The recursion of `_establish_downstream_directives_channel`, driven by an
oracle listing the status of each successive GET /directives attempt.  On a
403 the source reads and closes the response, calls `request_new_tokens`
(assumed here to succeed; on a non-200 of the token endpoint it raises) and
recurses unconditionally; on any other status it returns the stream.  Result:
`some (number of token refreshes performed, final status)`, or `none` when
the oracle runs out while the source would still be recursing. -/
def establish_downstream : List Nat → Option (Nat × Nat)
  | [] => none
  | s :: rest =>
    if s = 403 then (establish_downstream rest).map (fun r => (r.1 + 1, r.2))
    else some (0, s)

/-- C2 (counterexample): two consecutive 403s are not fatal and the retry
recursion is not bounded at depth one: with GET statuses 403, 403, 200 the
code refreshes the token twice — the second 403 is followed by another
refresh-and-retry which succeeds. -/
theorem claim2_downchannel_counterexample :
    establish_downstream [403, 403, 200] = some (2, 200) ∧ (2 : Nat) ≠ 1 := by
  decide

/-- C2 (amended): every 403 — not only the first — triggers exactly one token
refresh followed by a retry of the GET; the recursion is unbounded in the
number of consecutive 403s and stops only at the first non-403 response
(after one refresh per preceding 403), or if the token refresh itself raises. -/
theorem claim2_downchannel_amended (k : Nat) (s : Nat) (rest : List Nat)
    (h : s ≠ 403) :
    establish_downstream (List.replicate k 403 ++ s :: rest) = some (k, s) := by
  induction k with
  | zero =>
    simp [establish_downstream, h]
  | succ k ih =>
    simp only [List.replicate_succ, List.cons_append]
    unfold establish_downstream
    rw [if_pos rfl, ih]
    rfl

/-- C2 (witness): three consecutive 403s then 200 — four GETs, three
refreshes, success. -/
theorem claim2_downchannel_witness :
    establish_downstream (List.replicate 3 403 ++ 200 :: []) = some (3, 200) :=
  claim2_downchannel_amended 3 200 [] (by decide)

/-! ## Claim C5: SetAlert scheduling delay
(src/directives.py `Alerts.SetAlert.handle`, lines 255-263) -/

/-- Python `timedelta.seconds`: a timedelta of `us` microseconds is
normalized to days/seconds/microseconds with 0 ≤ seconds < 86400, so the
`.seconds` component is (us // 10^6) % 86400 with Python floor division and
nonnegative modulus — which for the positive divisors used here coincide with
Int's `/` (Int.ediv) and `%` (Int.emod). -/
def timedelta_seconds (us : Int) : Int :=
  (us / 1000000) % 86400

/-- The delay passed to `avs.scheduler.enter` by `SetAlert.handle`:
`(self.scheduledTime - datetime.datetime.utcnow(...)).seconds + 1`, times in
microseconds since the epoch. -/
def setAlert_delay (scheduledUs nowUs : Int) : Int :=
  timedelta_seconds (scheduledUs - nowUs) + 1

/-- C5 (counterexample): the registered delay does not equal the scheduled
time minus the current time for a future scheduledTime (5 s ahead gives 6 s,
because of the `+ 1`), and a scheduledTime 5 s in the past is not clamped to
fire almost immediately: `.seconds` of the negative timedelta is 86395, so
the alert is deferred 86396 s — almost a day. -/
theorem claim5_set_alert_delay_counterexample :
    setAlert_delay 5000000 0 = 6 ∧ (6 : Int) ≠ 5 ∧
      setAlert_delay 0 5000000 = 86396 := by
  decide

/-- C5 (amended): the registered delay is
(⌊(scheduled − now)/1 s⌋ mod 86400) + 1 seconds.  It is always at least 1 and
at most 86400 — so indeed never negative — and for a future scheduledTime
less than 24 h away it is the floored whole-second difference plus one; but a
past scheduledTime is not clamped to fire almost immediately: the negative
difference wraps modulo 86400, deferring the alert by up to a day. -/
theorem claim5_set_alert_delay_amended (s n : Int) :
    1 ≤ setAlert_delay s n ∧ setAlert_delay s n ≤ 86400 ∧
      (0 ≤ s - n → s - n < 86400 * 1000000 →
        setAlert_delay s n = (s - n) / 1000000 + 1) := by
  unfold setAlert_delay timedelta_seconds
  refine ⟨?_, ?_, ?_⟩
  · have h := Int.emod_nonneg ((s - n) / 1000000) (by norm_num : (86400 : Int) ≠ 0)
    omega
  · have h := Int.emod_lt_of_pos ((s - n) / 1000000) (by norm_num : (0 : Int) < 86400)
    omega
  · intro h1 h2
    have hnn : 0 ≤ (s - n) / 1000000 := Int.ediv_nonneg h1 (by norm_num)
    have hlt : (s - n) / 1000000 < 86400 := by
      rw [Int.ediv_lt_iff_lt_mul (by norm_num : (0 : Int) < 1000000)]
      linarith
    rw [Int.emod_eq_of_lt hnn hlt]

/-- C5 (witness): scheduledTime 5 s in the future, delay 6 s. -/
theorem claim5_set_alert_delay_witness :
    setAlert_delay 5000000 0 = (5000000 - 0 : Int) / 1000000 + 1 :=
  (claim5_set_alert_delay_amended 5000000 0).2.2 (by decide) (by decide)

/-! ## Multipart codec (claim C4)

The repository encodes event bodies with requests_toolbelt's MultipartEncoder
(src/directives.py `generate_payload`, src/avs.py `_generate_recognize_payload`
CLOSE_TALK branch), builds the streamed NEAR_FIELD Recognize body by hand
(src/avs.py lines 357-396), and decodes multipart bodies with
requests_toolbelt's MultipartDecoder (src/util.py `multipart_parse`).

Modelled from the spec: the codec library itself is an external collaborator
whose code is not under src/; §4.1 specifies `encode` as producing parts with
explicit headers "terminated by the standard closing boundary marker" and
`decode` as the inverse, i.e. the standard multipart/form-data framing, in
which a part is `--boundary CRLF headers CRLF CRLF content CRLF` and the body
ends with `--boundary-- CRLF`; the decoder splits the body on
`CRLF -- boundary`, discards the empty/closing pieces, and splits each part
into headers and content at the first `CRLF CRLF`.  The hand-built Recognize
body is translated directly from src/avs.py.

We first build substring search/split machinery on byte strings. -/

/-- Index of the first occurrence of `d` as a substring of `s`. -/
def findSub (d : Bytes) : Bytes → Option Nat
  | [] => if d.isEmpty then some 0 else none
  | c :: t =>
    if listStartsWith d (c :: t) then some 0
    else (findSub d t).map (· + 1)

/-- Split `s` on every (leftmost-first) occurrence of the non-empty
delimiter `d` (Python `s.split(d)`). -/
def splitOnSub (d : Bytes) (s : Bytes) : List Bytes :=
  match s with
  | [] => [[]]
  | c :: t =>
    if h : d ≠ [] ∧ listStartsWith d (c :: t) = true then
      [] :: splitOnSub d ((c :: t).drop d.length)
    else
      match splitOnSub d t with
      | [] => [[]]
      | piece :: rest => (c :: piece) :: rest
termination_by s.length
decreasing_by
  · have hd : 0 < d.length := List.length_pos.mpr h.1
    simp
    omega
  · simp

theorem listStartsWith_append (d r : Bytes) : listStartsWith d (d ++ r) = true := by
  induction d with
  | nil => rfl
  | cons c d ih => simp [listStartsWith, ih]

theorem listStartsWith_length {d s : Bytes} (h : listStartsWith d s = true) :
    d.length ≤ s.length := by
  induction d generalizing s with
  | nil => simp
  | cons c d ih =>
    cases s with
    | nil => simp [listStartsWith] at h
    | cons e t =>
      simp only [listStartsWith, Bool.and_eq_true] at h
      have := ih h.2
      simp only [List.length_cons]
      omega

theorem listStartsWith_of_append {d x y : Bytes}
    (h : listStartsWith d (x ++ y) = true) (hl : d.length ≤ x.length) :
    listStartsWith d x = true := by
  induction d generalizing x with
  | nil => rfl
  | cons c d ih =>
    cases x with
    | nil => simp at hl
    | cons e t =>
      simp only [List.cons_append, listStartsWith, Bool.and_eq_true] at h ⊢
      refine ⟨h.1, ih h.2 ?_⟩
      simp only [List.length_cons] at hl
      omega

theorem hasSub_of_startsWith {d s : Bytes} (h : listStartsWith d s = true) :
    hasSub d s = true := by
  cases s with
  | nil =>
    cases d with
    | nil => rfl
    | cons c d => simp [listStartsWith] at h
  | cons c t => simp [hasSub, h]

theorem hasSub_cons_false {d : Bytes} {c : Char} {t : Bytes}
    (h : hasSub d (c :: t) = false) : hasSub d t = false := by
  simp only [hasSub, Bool.or_eq_false_iff] at h
  exact h.2

theorem hasSub_length {d s : Bytes} (h : hasSub d s = true) : d.length ≤ s.length := by
  induction s with
  | nil =>
    cases d with
    | nil => simp
    | cons c d => simp [hasSub] at h
  | cons c t ih =>
    simp only [hasSub, Bool.or_eq_true] at h
    rcases h with h | h
    · exact listStartsWith_length h
    · have := ih h
      simp only [List.length_cons]
      omega

theorem hasSub_eq_false_of_long {d s : Bytes} (h : s.length < d.length) :
    hasSub d s = false := by
  cases hx : hasSub d s with
  | false => rfl
  | true => exact absurd (hasSub_length hx) (by omega)

/-- An occurrence of `d` starting strictly inside `a` in `(a ++ d) ++ r`
would lie within the window `a ++ d.dropLast`. -/
theorem startsWith_mid {d a r : Bytes} (hd : d ≠ []) (ha : a ≠ [])
    (h : listStartsWith d ((a ++ d) ++ r) = true) :
    hasSub d (a ++ d.dropLast) = true := by
  have hrw : (a ++ d) ++ r = (a ++ d.dropLast) ++ ([d.getLast hd] ++ r) := by
    simp only [List.append_assoc]
    rw [← List.append_assoc d.dropLast, List.dropLast_append_getLast hd]
  rw [hrw] at h
  have hlen : d.length ≤ (a ++ d.dropLast).length := by
    have h1 : 0 < a.length := List.length_pos.mpr ha
    have h2 : 0 < d.length := List.length_pos.mpr hd
    simp only [List.length_append, List.length_dropLast]
    omega
  exact hasSub_of_startsWith (listStartsWith_of_append h hlen)

theorem findSub_append {d : Bytes} (hd : d ≠ []) (a r : Bytes)
    (H : hasSub d (a ++ d.dropLast) = false) :
    findSub d ((a ++ d) ++ r) = some a.length := by
  induction a with
  | nil =>
    simp only [List.nil_append, List.length_nil]
    cases d with
    | nil => exact absurd rfl hd
    | cons c d' =>
      have hs : listStartsWith (c :: d') (c :: (d' ++ r)) = true := by
        simpa using listStartsWith_append (c :: d') r
      show findSub (c :: d') (c :: (d' ++ r)) = some 0
      conv_lhs => rw [findSub]
      rw [if_pos hs]
  | cons c a ih =>
    have hns : listStartsWith d (c :: ((a ++ d) ++ r)) = false := by
      cases hx : listStartsWith d (c :: ((a ++ d) ++ r)) with
      | false => rfl
      | true =>
        have hx' : listStartsWith d (((c :: a) ++ d) ++ r) = true := by
          simpa using hx
        have := startsWith_mid hd (List.cons_ne_nil c a) hx'
        rw [this] at H
        exact absurd H (by simp)
    have hns2 : listStartsWith d (c :: (a ++ (d ++ r))) = false := by
      simpa using hns
    show findSub d (c :: ((a ++ d) ++ r)) = some (a.length + 1)
    conv_lhs => rw [findSub]
    rw [if_neg (by simp [hns2])]
    have Ha : hasSub d (a ++ d.dropLast) = false := by
      have h2 : hasSub d (c :: (a ++ d.dropLast)) = false := by simpa using H
      exact hasSub_cons_false h2
    rw [ih Ha]
    rfl

theorem splitOnSub_append {d : Bytes} (hd : d ≠ []) (a r : Bytes)
    (H : hasSub d (a ++ d.dropLast) = false) :
    splitOnSub d ((a ++ d) ++ r) = a :: splitOnSub d r := by
  induction a with
  | nil =>
    simp only [List.nil_append]
    cases d with
    | nil => exact absurd rfl hd
    | cons c d' =>
      have hs : listStartsWith (c :: d') (c :: (d' ++ r)) = true := by
        simpa using listStartsWith_append (c :: d') r
      have hdrop : (c :: (d' ++ r)).drop (c :: d').length = r := by
        have h3 : c :: (d' ++ r) = (c :: d') ++ r := by simp
        rw [h3, List.drop_left]
      show splitOnSub (c :: d') (c :: (d' ++ r)) = [] :: splitOnSub (c :: d') r
      conv_lhs => rw [splitOnSub]
      rw [dif_pos ⟨hd, hs⟩, hdrop]
  | cons c a ih =>
    have hns : listStartsWith d (c :: ((a ++ d) ++ r)) = false := by
      cases hx : listStartsWith d (c :: ((a ++ d) ++ r)) with
      | false => rfl
      | true =>
        have hx' : listStartsWith d (((c :: a) ++ d) ++ r) = true := by
          simpa using hx
        have := startsWith_mid hd (List.cons_ne_nil c a) hx'
        rw [this] at H
        exact absurd H (by simp)
    have hns2 : listStartsWith d (c :: (a ++ (d ++ r))) = false := by
      simpa using hns
    show splitOnSub d (c :: ((a ++ d) ++ r)) = (c :: a) :: splitOnSub d r
    conv_lhs => rw [splitOnSub]
    rw [dif_neg (by simp [hns2])]
    have Ha : hasSub d (a ++ d.dropLast) = false := by
      have h2 : hasSub d (c :: (a ++ d.dropLast)) = false := by simpa using H
      exact hasSub_cons_false h2
    rw [ih Ha]

theorem splitOnSub_of_no_sub {d s : Bytes} (H : hasSub d s = false) :
    splitOnSub d s = [s] := by
  induction s with
  | nil => rw [splitOnSub]
  | cons c t ih =>
    have h1 : listStartsWith d (c :: t) = false := by
      cases hx : listStartsWith d (c :: t) with
      | false => rfl
      | true => rw [hasSub_of_startsWith hx] at H; exact absurd H (by simp)
    conv_lhs => rw [splitOnSub]
    rw [dif_neg (by simp [h1])]
    rw [ih (hasSub_cons_false H)]

/-! ### Codec definitions -/

def crlf : Bytes := ['\x0d', '\x0a']

def crlfcrlf : Bytes := crlf ++ crlf

def dashdash : Bytes := ['-', '-']

def nlB : Bytes := ['\x0a']

/-- The decoder's filter on split pieces: drop the empty piece, a bare CRLF,
the closing piece (starting "--CRLF") and a bare "--". -/
def test_part (p : Bytes) : Bool :=
  !(p == []) && !(p == crlf) && !(p.take 4 == dashdash ++ crlf) && !(p == dashdash)

/-- The decoder strips a leading `"--" ++ boundary` from a piece. -/
def fix_first_part (bmark p : Bytes) : Bytes :=
  if listStartsWith bmark p then p.drop bmark.length else p

/-- Python `bytes.lstrip` whitespace set. -/
def isPySpace (c : Char) : Bool :=
  c == ' ' || c == '\t' || c == '\x0a' || c == '\x0d' || c == '\x0b' || c == '\x0c'

def lstripBytes (s : Bytes) : Bytes := s.dropWhile isPySpace

/-- Split on CRLF (Python `string.split(b'\x0d\x0a')`), structurally. -/
def splitLines : Bytes → List Bytes
  | [] => [[]]
  | '\x0d' :: '\x0a' :: t => [] :: splitLines t
  | c :: t =>
    match splitLines t with
    | [] => [[]]
    | piece :: rest => (c :: piece) :: rest

/-- One `Name: value` header line. -/
def parse_header_line (line : Bytes) : Option (Bytes × Bytes) :=
  match findSub (bytes ": ") line with
  | some i => some (line.take i, line.drop (i + 2))
  | none => none

/-- The decoder's header-block parser: split the block on CRLF, skip empty
lines, parse each `Name: value` line (a malformed line is skipped). -/
def parse_headers (s : Bytes) : List (Bytes × Bytes) :=
  (splitLines s).filterMap
    (fun line => if line = [] then none else parse_header_line line)

/-- The decoder's per-part parser: split at the first CRLF-CRLF (`none`
models the decoder raising when a part has none), left-strip the header block
and parse it; the remainder is the part content. -/
def parse_body_part (p : Bytes) : Option (List (Bytes × Bytes) × Bytes) :=
  match findSub crlfcrlf p with
  | none => none
  | some i => some (parse_headers (lstripBytes (p.take i)), p.drop (i + 4))

/-- src/util.py `multipart_parse` (boundary already extracted from the
content type): split the body on `CRLF ++ "--" ++ boundary`, keep the real
pieces, strip a leading `"--" ++ boundary`, and parse each piece into
(headers, content).  `none` models the decoder raising. -/
def multipart_parse (boundary data : Bytes) :
    Option (List (List (Bytes × Bytes) × Bytes)) :=
  ((splitOnSub (crlf ++ (dashdash ++ boundary)) data).filter test_part).mapM
    (fun p => parse_body_part (fix_first_part (dashdash ++ boundary) p))

/-- The encoder's body for a list of (header block, content) parts:
`--boundary CRLF headers CRLF CRLF content CRLF` for each part, then the
closing `--boundary-- CRLF`. -/
def multipart_encode (boundary : Bytes) (parts : List (Bytes × Bytes)) : Bytes :=
  (parts.map
      (fun hc => dashdash ++ boundary ++ crlf ++ hc.1 ++ crlfcrlf ++ hc.2 ++ crlf)).flatten
    ++ dashdash ++ boundary ++ dashdash ++ crlf

/-- Header block the encoder writes for the `metadata` JSON part. -/
def metadata_part_headers : Bytes :=
  bytes "Content-Disposition: form-data; name=\"metadata\"" ++ crlf ++
    bytes "Content-Type: application/json"

/-- Header block the encoder writes for the `audio` binary part. -/
def audio_part_headers : Bytes :=
  bytes "Content-Disposition: form-data; name=\"audio\"" ++ crlf ++
    bytes "Content-Type: application/octet-stream"

/-- src/directives.py `generate_payload`: the encoded body with the single
`metadata` JSON part (the event serialized as `eventJson`). -/
def generate_payload_body (boundary eventJson : Bytes) : Bytes :=
  multipart_encode boundary [(metadata_part_headers, eventJson)]

/-- src/avs.py `_generate_recognize_payload`, CLOSE_TALK branch: `metadata`
JSON part plus the `audio` binary part. -/
def close_talk_payload_body (boundary eventJson audio : Bytes) : Bytes :=
  multipart_encode boundary
    [(metadata_part_headers, eventJson), (audio_part_headers, audio)]

/-- src/avs.py line 19 `_RECOGNIZE_METADATA_PART_HEADER` (bare LF line ends). -/
def RECOGNIZE_METADATA_PART_HEADER : Bytes :=
  bytes "Content-Disposition: form-data; name=\"metadata\"" ++ nlB ++
    bytes "Content-Type: application/json; charset=UTF-8" ++ nlB ++ nlB

/-- src/avs.py line 21 `_RECOGNIZE_AUDIO_PART_HEADER` (bare LF line ends). -/
def RECOGNIZE_AUDIO_PART_HEADER : Bytes :=
  bytes "Content-Disposition: form-data; name=\"audio\"" ++ nlB ++
    bytes "Content-Type: application/octet-stream" ++ nlB ++ nlB

/-- The streamed NEAR_FIELD Recognize body (src/avs.py lines 359-367 plus
the MultiPartAudioFileLike reader, which yields preamble, audio bytes, then
the epilogue): every separator is a bare "\n", never CRLF. -/
def recognize_stream_body (boundary eventJson audio : Bytes) : Bytes :=
  dashdash ++ boundary ++ nlB ++ RECOGNIZE_METADATA_PART_HEADER ++
    eventJson ++ nlB ++ nlB ++
    dashdash ++ boundary ++ nlB ++ RECOGNIZE_AUDIO_PART_HEADER ++
    audio ++ nlB ++ nlB ++ dashdash ++ boundary ++ dashdash

/-- The piece of the encoded body holding the metadata part (as produced by
splitting the body on `CRLF ++ "--" ++ boundary`). -/
def enc_meta_piece (boundary eventJson : Bytes) : Bytes :=
  dashdash ++ boundary ++ crlf ++ metadata_part_headers ++ crlfcrlf ++ eventJson

/-- The piece of the encoded body holding the audio part. -/
def enc_audio_piece (audio : Bytes) : Bytes :=
  crlf ++ audio_part_headers ++ crlfcrlf ++ audio

/-- The decoder's view of the metadata part headers. -/
def metadata_parsed_headers : List (Bytes × Bytes) :=
  [(bytes "Content-Disposition", bytes "form-data; name=\"metadata\""),
   (bytes "Content-Type", bytes "application/json")]

/-- The decoder's view of the audio part headers. -/
def audio_parsed_headers : List (Bytes × Bytes) :=
  [(bytes "Content-Disposition", bytes "form-data; name=\"audio\""),
   (bytes "Content-Type", bytes "application/octet-stream")]

/-! ### Piece-level lemmas -/

theorem test_part_dash (c : Char) (t : Bytes) (hc : c ≠ '\x0d') :
    test_part ('-' :: '-' :: c :: t) = true := by
  unfold test_part
  simp only [Bool.and_eq_true, Bool.not_eq_true', beq_eq_false_iff_ne]
  refine ⟨⟨⟨by simp, by simp [crlf]⟩, ?_⟩, by simp [dashdash]⟩
  intro h
  simp [dashdash, crlf, List.take] at h
  exact hc h.1

theorem test_part_meta (b : Bytes) (hb : b ≠ []) (hbr : b.head? ≠ some '\x0d')
    (J : Bytes) : test_part (enc_meta_piece b J) = true := by
  obtain ⟨c, b', rfl⟩ := List.exists_cons_of_ne_nil hb
  have hc : c ≠ '\x0d' := by simpa using hbr
  exact test_part_dash c _ hc

theorem test_part_audio (A : Bytes) : test_part (enc_audio_piece A) = true := rfl

theorem test_part_close : test_part (dashdash ++ crlf) = false := rfl

theorem parse_meta_piece (b J : Bytes) :
    parse_body_part (fix_first_part (dashdash ++ b) (enc_meta_piece b J)) =
      some (metadata_parsed_headers, J) := by
  have he : enc_meta_piece b J =
      (dashdash ++ b) ++ (crlf ++ (metadata_part_headers ++ (crlfcrlf ++ J))) := by
    simp [enc_meta_piece, List.append_assoc]
  have hfix : fix_first_part (dashdash ++ b) (enc_meta_piece b J) =
      crlf ++ (metadata_part_headers ++ (crlfcrlf ++ J)) := by
    unfold fix_first_part
    rw [he, if_pos (listStartsWith_append (dashdash ++ b) _)]
    exact List.drop_left _ _
  have hsh : crlf ++ (metadata_part_headers ++ (crlfcrlf ++ J)) =
      ((crlf ++ metadata_part_headers) ++ crlfcrlf) ++ J := by
    simp [List.append_assoc]
  rw [hfix, hsh]
  unfold parse_body_part
  rw [findSub_append (by decide) (crlf ++ metadata_part_headers) J (by decide)]
  dsimp only
  have ht : (((crlf ++ metadata_part_headers) ++ crlfcrlf) ++ J).take
      (crlf ++ metadata_part_headers).length = crlf ++ metadata_part_headers := by
    rw [List.append_assoc]
    exact List.take_left _ _
  have hdp : (((crlf ++ metadata_part_headers) ++ crlfcrlf) ++ J).drop
      ((crlf ++ metadata_part_headers).length + 4) = J := by
    refine List.drop_left' ?_
    simp [crlfcrlf, crlf]
  rw [ht, hdp]
  have hph : parse_headers (lstripBytes (crlf ++ metadata_part_headers)) =
      metadata_parsed_headers := by decide
  rw [hph]

theorem parse_audio_piece (b A : Bytes) :
    parse_body_part (fix_first_part (dashdash ++ b) (enc_audio_piece A)) =
      some (audio_parsed_headers, A) := by
  have hfix : fix_first_part (dashdash ++ b) (enc_audio_piece A) =
      enc_audio_piece A := by
    unfold fix_first_part
    rw [if_neg]
    simp [show listStartsWith (dashdash ++ b) (enc_audio_piece A) = false from rfl]
  have hsh : enc_audio_piece A =
      ((crlf ++ audio_part_headers) ++ crlfcrlf) ++ A := by
    simp [enc_audio_piece, List.append_assoc]
  rw [hfix, hsh]
  unfold parse_body_part
  rw [findSub_append (by decide) (crlf ++ audio_part_headers) A (by decide)]
  dsimp only
  have ht : (((crlf ++ audio_part_headers) ++ crlfcrlf) ++ A).take
      (crlf ++ audio_part_headers).length = crlf ++ audio_part_headers := by
    rw [List.append_assoc]
    exact List.take_left _ _
  have hdp : (((crlf ++ audio_part_headers) ++ crlfcrlf) ++ A).drop
      ((crlf ++ audio_part_headers).length + 4) = A := by
    refine List.drop_left' ?_
    simp [crlfcrlf, crlf]
  rw [ht, hdp]
  have hph : parse_headers (lstripBytes (crlf ++ audio_part_headers)) =
      audio_parsed_headers := by decide
  rw [hph]

/-! ### Whole-body lemmas and claim C4 -/

theorem generate_payload_body_shape (b J : Bytes) :
    generate_payload_body b J =
      ((enc_meta_piece b J) ++ (crlf ++ (dashdash ++ b))) ++ (dashdash ++ crlf) := by
  simp [generate_payload_body, multipart_encode, enc_meta_piece, crlfcrlf,
    List.append_assoc]

theorem close_talk_body_shape (b J A : Bytes) :
    close_talk_payload_body b J A =
      ((enc_meta_piece b J) ++ (crlf ++ (dashdash ++ b))) ++
        (((enc_audio_piece A) ++ (crlf ++ (dashdash ++ b))) ++ (dashdash ++ crlf)) := by
  simp [close_talk_payload_body, multipart_encode, enc_meta_piece, enc_audio_piece,
    crlfcrlf, List.append_assoc]

set_option maxRecDepth 8192 in
/-- C4 (counterexample): the hand-built streamed Recognize body does not
round-trip through the codec's own decoder.  Its framing uses bare "\n"
separators (src/avs.py lines 19-22 and 359-367), so the decoder — which
splits parts on CRLF boundaries and requires a CRLF-CRLF header terminator —
finds no part separator and no header/content split and fails (raises, here
`none`), instead of yielding back the metadata and audio parts. -/
theorem claim4_streamed_body_counterexample :
    multipart_parse (bytes "b")
      (recognize_stream_body (bytes "b") (bytes "EVENT") (bytes "AUDIO")) = none := by
  have hno : hasSub (crlf ++ (dashdash ++ bytes "b"))
      (recognize_stream_body (bytes "b") (bytes "EVENT") (bytes "AUDIO")) = false := by
    decide
  unfold multipart_parse
  rw [splitOnSub_of_no_sub hno]
  decide

/-- C4 (amended): the round-trip holds for the two MultipartEncoder-produced
bodies — `generate_payload`'s single-metadata-part body and the buffered
CLOSE_TALK Recognize body — for every boundary and every metadata/audio
content such that the part delimiter `CRLF ++ "--" ++ boundary` does not
occur inside a part piece (the standard multipart side condition; the
boundary must also be non-empty and not start with CR): decoding yields
exactly the original serialized metadata and the original audio bytes, in
order, with the encoder's headers.  The hand-built streamed NEAR_FIELD body
is excluded: its bare-LF framing makes the decoder fail (see the
counterexample). -/
theorem claim4_multipart_roundtrip (b J A : Bytes)
    (hb : b ≠ []) (hbr : b.head? ≠ some '\x0d')
    (h0 : hasSub (crlf ++ (dashdash ++ b))
        (enc_meta_piece b J ++ (crlf ++ (dashdash ++ b)).dropLast) = false)
    (h1 : hasSub (crlf ++ (dashdash ++ b))
        (enc_audio_piece A ++ (crlf ++ (dashdash ++ b)).dropLast) = false) :
    multipart_parse b (generate_payload_body b J) =
        some [(metadata_parsed_headers, J)] ∧
      multipart_parse b (close_talk_payload_body b J A) =
        some [(metadata_parsed_headers, J), (audio_parsed_headers, A)] := by
  have hdne : crlf ++ (dashdash ++ b) ≠ [] := by simp [crlf]
  have htail : hasSub (crlf ++ (dashdash ++ b)) (dashdash ++ crlf) = false := by
    apply hasSub_eq_false_of_long
    have hpos := List.length_pos.mpr hb
    simp [crlf, dashdash]
    omega
  constructor
  · unfold multipart_parse
    rw [generate_payload_body_shape, splitOnSub_append hdne _ _ h0,
      splitOnSub_of_no_sub htail]
    have hfil : List.filter test_part [enc_meta_piece b J, dashdash ++ crlf] =
        [enc_meta_piece b J] := by
      simp [List.filter_cons, test_part_meta b hb hbr J, test_part_close]
    rw [hfil]
    simp [List.mapM.loop, parse_meta_piece b J]
  · unfold multipart_parse
    rw [close_talk_body_shape, splitOnSub_append hdne _ _ h0,
      splitOnSub_append hdne _ _ h1, splitOnSub_of_no_sub htail]
    have hfil : List.filter test_part
        [enc_meta_piece b J, enc_audio_piece A, dashdash ++ crlf] =
        [enc_meta_piece b J, enc_audio_piece A] := by
      simp [List.filter_cons, test_part_meta b hb hbr J, test_part_audio A,
        test_part_close]
    rw [hfil]
    simp [List.mapM.loop, parse_meta_piece b J, parse_audio_piece b A]

/-- C4 (witness): concrete boundary "bnd", metadata text "EVJSON", audio
"RAWAUDIO". -/
theorem claim4_multipart_roundtrip_witness :
    multipart_parse (bytes "bnd")
        (generate_payload_body (bytes "bnd") (bytes "EVJSON")) =
      some [(metadata_parsed_headers, bytes "EVJSON")] ∧
    multipart_parse (bytes "bnd")
        (close_talk_payload_body (bytes "bnd") (bytes "EVJSON") (bytes "RAWAUDIO")) =
      some [(metadata_parsed_headers, bytes "EVJSON"),
            (audio_parsed_headers, bytes "RAWAUDIO")] :=
  claim4_multipart_roundtrip (bytes "bnd") (bytes "EVJSON") (bytes "RAWAUDIO")
    (by decide) (by decide) (by decide) (by decide)
